import Mathlib

/-!
Verification of the core logic of `video-template-composer.tsx`
(ffmpeg-template-composer): the layer data model, grid snapping, hit
testing, drag/resize transforms, z-order management, layer duplication,
field updates, and the ffmpeg filter-graph compiler
(`generateFFmpegCommand`).

Modelling conventions:
* JavaScript numbers are modelled as `ℚ` (exact rational arithmetic;
  the source never produces NaN/Infinity on the paths verified here).
  `Math.round` is Mathlib's `round` (both are `⌊x + 1/2⌋`).
* Canvas dimensions come from image pixel sizes or the fixed default
  504×846, so they are modelled as `ℤ`; font sizes are printed verbatim
  into the command and are modelled as `ℕ` (integral in every UI state).
* `ctx.measureText().width` is an external rendering-engine quantity; it
  is passed in as an oracle `mw : Layer → ℚ` and `measureText` adds the
  fixed 20px padding and the `fontSize×1.4` line height from the source.
* `Date.now()` is passed in as an explicit `now : ℕ` argument.
* The TypeScript tagged union `VideoLayer | TextLayer` is modelled as a
  single record with a `type` tag (mirroring the JS object layout that
  `{ ...layer, ...updates }` spreads operate on); fields of the other
  variant are simply unused.
* `Array.prototype.sort` (stable) is modelled by `List.insertionSort`
  with the comparator's ordering, which is also stable.
-/

namespace FFC

inductive LayerType
  | video
  | text
deriving DecidableEq, Repr

/-- Union of the `VideoLayer` and `TextLayer` interfaces, tagged by `type`. -/
structure Layer where
  id : String
  type : LayerType
  name : String
  x : ℚ
  y : ℚ
  visible : Bool
  zIndex : ℤ
  width : ℚ := 0
  height : ℚ := 0
  aspectLocked : Bool := false
  aspectRatio : ℚ := 1
  text : String := ""
  fontSize : ℕ := 48
  fontFamily : String := "Arial"
  color : String := "#ffffff"
  bold : Bool := false
  italic : Bool := false
deriving DecidableEq, Repr

structure CanvasSize where
  width : ℤ
  height : ℤ
deriving DecidableEq, Repr

def MIN_SIZE : ℚ := 50

/-- Source `snapValue`: if snapping is off the value passes through, otherwise it
is replaced by `Math.round(value / gridSize) * gridSize`. -/
def snapValue (snapToGrid : Bool) (gridSize : ℚ) (value : ℚ) : ℚ :=
  if snapToGrid then ((round (value / gridSize) : ℤ) : ℚ) * gridSize else value

/-- The rendering engine's `ctx.measureText(...).width`, as a function of
the measured string and the font style (`fontSize`, `fontFamily`, `bold`,
`italic`) set on the context before measuring. -/
def TextMeasure : Type :=
  String → ℕ → String → Bool → Bool → ℚ

/-- Source `measureText`: width is the engine-measured width of `text || 'Text'`
plus 20px padding, height is `fontSize * 1.4`. -/
def measureText (mw : TextMeasure) (l : Layer) : ℚ × ℚ :=
  (mw (if l.text = "" then "Text" else l.text)
      l.fontSize l.fontFamily l.bold l.italic + 20,
   (l.fontSize : ℚ) * (7 / 5))

/-- Source `isPointInLayer`: containment test against the layer's bounding box
(stored size for video, measured size for text). -/
def isPointInLayer (mw : TextMeasure) (l : Layer) (px py : ℚ) : Bool :=
  match l.type with
  | LayerType.video =>
      decide (l.x ≤ px) && decide (px ≤ l.x + l.width) &&
      decide (l.y ≤ py) && decide (py ≤ l.y + l.height)
  | LayerType.text =>
      decide (l.x ≤ px) && decide (px ≤ l.x + (measureText mw l).1) &&
      decide (l.y ≤ py) && decide (py ≤ l.y + (measureText mw l).2)

/-- The `[...layers].sort((a, b) => b.zIndex - a.zIndex)` step of
`handleCanvasMouseDown` (stable descending sort). -/
def sortedDescByZ (layers : List Layer) : List Layer :=
  List.insertionSort (fun a b => b.zIndex ≤ a.zIndex) layers

/-- The clicked-layer lookup of `handleCanvasMouseDown`: first visible
layer containing the point, scanning in descending zIndex order. -/
def findClickedLayer (mw : TextMeasure) (layers : List Layer) (px py : ℚ) :
    Option Layer :=
  (sortedDescByZ layers).find? (fun l => l.visible && isPointInLayer mw l px py)

/-- A `Partial<Layer>` updates object (only the fields the component ever
passes to `updateLayer`). -/
structure LayerUpdates where
  name : Option String := none
  x : Option ℚ := none
  y : Option ℚ := none
  visible : Option Bool := none
  width : Option ℚ := none
  height : Option ℚ := none
  aspectLocked : Option Bool := none
  aspectRatio : Option ℚ := none
  text : Option String := none
  fontSize : Option ℕ := none
  fontFamily : Option String := none
  color : Option String := none
  bold : Option Bool := none
  italic : Option Bool := none
deriving DecidableEq, Repr

/-- The `{ ...layer, ...updates }` spread. -/
def spreadUpdates (l : Layer) (u : LayerUpdates) : Layer :=
  { l with
    name := u.name.getD l.name
    x := u.x.getD l.x
    y := u.y.getD l.y
    visible := u.visible.getD l.visible
    width := u.width.getD l.width
    height := u.height.getD l.height
    aspectLocked := u.aspectLocked.getD l.aspectLocked
    aspectRatio := u.aspectRatio.getD l.aspectRatio
    text := u.text.getD l.text
    fontSize := u.fontSize.getD l.fontSize
    fontFamily := u.fontFamily.getD l.fontFamily
    color := u.color.getD l.color
    bold := u.bold.getD l.bold
    italic := u.italic.getD l.italic }

/-- Body of `updateLayer`'s map for the matching layer: spread the updates,
then (for a video layer) derive the other dimension when aspect-locked and
exactly one of width/height was supplied, then recompute `aspectRatio`
from the pre-update size when the update turns the lock on. -/
def updateLayerFields (l : Layer) (u : LayerUpdates) : Layer :=
  let updated := spreadUpdates l u
  if l.type = LayerType.video then
    let updated :=
      if l.aspectLocked = true ∧ u.width.isSome = true ∧ u.height = none then
        { updated with height := ((round ((u.width.getD 0) / l.aspectRatio) : ℤ) : ℚ) }
      else if l.aspectLocked = true ∧ u.height.isSome = true ∧ u.width = none then
        { updated with width := ((round ((u.height.getD 0) * l.aspectRatio) : ℤ) : ℚ) }
      else updated
    if u.aspectLocked = some true then
      { updated with aspectRatio := l.width / l.height }
    else updated
  else updated

/-- Source `updateLayer(id, updates)` over the collection. -/
def updateLayer (id : String) (u : LayerUpdates) (layers : List Layer) :
    List Layer :=
  layers.map (fun l => if l.id = id then updateLayerFields l u else l)

def findLayer (id : String) (layers : List Layer) : Option Layer :=
  layers.find? (fun l => l.id = id)

/-- Source `higherLayers.reduce((min, l) => l.zIndex < min.zIndex ? l : min)`. -/
def minByZ (h : Layer) (t : List Layer) : Layer :=
  t.foldl (fun m l => if l.zIndex < m.zIndex then l else m) h

/-- Source `lowerLayers.reduce((max, l) => l.zIndex > max.zIndex ? l : max)`. -/
def maxByZ (h : Layer) (t : List Layer) : Layer :=
  t.foldl (fun m l => if m.zIndex < l.zIndex then l else m) h

/-- Source `moveLayerUp`: swap the target's zIndex with the smallest zIndex
strictly above it; no-op if none exists. -/
def moveLayerUp (id : String) (layers : List Layer) : List Layer :=
  match findLayer id layers with
  | none => layers
  | some target =>
    match layers.filter (fun l => target.zIndex < l.zIndex) with
    | [] => layers
    | h :: t =>
      let nextHigher := minByZ h t
      layers.map (fun l =>
        if l.id = id then { l with zIndex := nextHigher.zIndex }
        else if l.id = nextHigher.id then { l with zIndex := target.zIndex }
        else l)

/-- Source `moveLayerDown`: swap the target's zIndex with the largest zIndex
strictly below it; no-op if none exists. -/
def moveLayerDown (id : String) (layers : List Layer) : List Layer :=
  match findLayer id layers with
  | none => layers
  | some target =>
    match layers.filter (fun l => l.zIndex < target.zIndex) with
    | [] => layers
    | h :: t =>
      let nextLower := maxByZ h t
      layers.map (fun l =>
        if l.id = id then { l with zIndex := nextLower.zIndex }
        else if l.id = nextLower.id then { l with zIndex := target.zIndex }
        else l)

/-- Source `Math.max(...layers.map(l => l.zIndex))` for a nonempty collection
(the only way the source calls it); `0` stands in for `-Infinity` on `[]`. -/
def zMax : List Layer → ℤ
  | [] => 0
  | l :: ls => ls.foldl (fun m x => max m x.zIndex) l.zIndex

def typeTag : LayerType → String
  | LayerType.video => "video"
  | LayerType.text => "text"

/-- Source `duplicateLayer`: append a copy with id `` `${type}-${Date.now()}` ``,
name suffixed " (copy)", position offset by 30 and clamped by
`Math.min(· , canvas − 100)`, snapped, and zIndex `max + 1`. -/
def duplicateLayer (now : ℕ) (snapToGrid : Bool) (gridSize : ℚ)
    (canvasSize : CanvasSize) (id : String) (layers : List Layer) :
    List Layer :=
  match findLayer id layers with
  | none => layers
  | some l =>
    let newLayer : Layer :=
      { l with
        id := typeTag l.type ++ "-" ++ toString now
        name := l.name ++ " (copy)"
        x := snapValue snapToGrid gridSize (min (l.x + 30) ((canvasSize.width : ℚ) - 100))
        y := snapValue snapToGrid gridSize (min (l.y + 30) ((canvasSize.height : ℚ) - 100))
        zIndex := zMax layers + 1 }
    layers ++ [newLayer]

inductive Handle
  | nw | n | ne | e | se | s | sw | w
deriving DecidableEq, Repr

structure Rect where
  x : ℚ
  y : ℚ
  width : ℚ
  height : ℚ
deriving DecidableEq, Repr

/-- The per-handle `switch` of the resizing branch of
`handleCanvasMouseMove`: new geometry from the gesture-start geometry
`start`, the pointer delta `(dx, dy)`, and the layer's aspect-lock state. -/
def computeResize (handle : Handle) (start : Rect) (locked : Bool)
    (ratio : ℚ) (dx dy : ℚ) : Rect :=
  match handle with
  | Handle.nw =>
    let w := max MIN_SIZE (start.width - dx)
    let h := if locked then w / ratio else max MIN_SIZE (start.height - dy)
    { x := start.x + start.width - w, y := start.y + start.height - h,
      width := w, height := h }
  | Handle.n =>
    let h := max MIN_SIZE (start.height - dy)
    let w := if locked then h * ratio else start.width
    { x := start.x, y := start.y + start.height - h, width := w, height := h }
  | Handle.ne =>
    let w := max MIN_SIZE (start.width + dx)
    let h := if locked then w / ratio else max MIN_SIZE (start.height - dy)
    { x := start.x, y := start.y + start.height - h, width := w, height := h }
  | Handle.e =>
    let w := max MIN_SIZE (start.width + dx)
    let h := if locked then w / ratio else start.height
    { x := start.x, y := start.y, width := w, height := h }
  | Handle.se =>
    let w := max MIN_SIZE (start.width + dx)
    let h := if locked then w / ratio else max MIN_SIZE (start.height + dy)
    { x := start.x, y := start.y, width := w, height := h }
  | Handle.s =>
    let h := max MIN_SIZE (start.height + dy)
    let w := if locked then h * ratio else start.width
    { x := start.x, y := start.y, width := w, height := h }
  | Handle.sw =>
    let w := max MIN_SIZE (start.width - dx)
    let h := if locked then w / ratio else max MIN_SIZE (start.height + dy)
    { x := start.x + start.width - w, y := start.y, width := w, height := h }
  | Handle.w =>
    let w := max MIN_SIZE (start.width - dx)
    let h := if locked then w / ratio else start.height
    { x := start.x + start.width - w, y := start.y, width := w, height := h }

/-- The resizing branch of `handleCanvasMouseMove`: per-handle geometry,
then clamp `x`/`y` into `[0, canvas − size]`, then snap all four values
and apply them through `updateLayer`. -/
def resizeMove (canvasSize : CanvasSize) (snapToGrid : Bool) (gridSize : ℚ)
    (handle : Handle) (start : Rect) (dx dy : ℚ) (l : Layer) : Layer :=
  if l.type = LayerType.video then
    let r := computeResize handle start l.aspectLocked l.aspectRatio dx dy
    let newX := max 0 (min ((canvasSize.width : ℚ) - r.width) r.x)
    let newY := max 0 (min ((canvasSize.height : ℚ) - r.height) r.y)
    updateLayerFields l
      { x := some (snapValue snapToGrid gridSize newX)
        y := some (snapValue snapToGrid gridSize newY)
        width := some (snapValue snapToGrid gridSize r.width)
        height := some (snapValue snapToGrid gridSize r.height) }
  else l

/-- The `layer.type === 'video' ? layer.width : measureText(layer).width`
bounding-box width used by the drag clamp (and by hit testing). -/
def boxWidth (mw : TextMeasure) (l : Layer) : ℚ :=
  match l.type with
  | LayerType.video => l.width
  | LayerType.text => (measureText mw l).1

/-- Bounding-box height: stored height for video, measured for text. -/
def boxHeight (mw : TextMeasure) (l : Layer) : ℚ :=
  match l.type with
  | LayerType.video => l.height
  | LayerType.text => (measureText mw l).2

/-- The dragging branch of `handleCanvasMouseMove`: pointer minus grab
offset, clamped so the (stored or measured) box stays in the canvas,
then snapped. -/
def dragMove (canvasSize : CanvasSize) (snapToGrid : Bool) (gridSize : ℚ)
    (mw : TextMeasure) (grabX grabY px py : ℚ) (l : Layer) : Layer :=
  let newX := px - grabX
  let newY := py - grabY
  let maxWidth := boxWidth mw l
  let maxHeight := boxHeight mw l
  updateLayerFields l
    { x := some (snapValue snapToGrid gridSize
        (max 0 (min ((canvasSize.width : ℚ) - maxWidth) newX)))
      y := some (snapValue snapToGrid gridSize
        (max 0 (min ((canvasSize.height : ℚ) - maxHeight) newY))) }

/-- Character-by-character `toLowerCase` (ASCII, as used by the layer names). -/
def lowerStr (s : String) : String :=
  ⟨s.data.map Char.toLower⟩

/-- Helper for `replace(/\s+/g, "_")`: the flag records whether we are
inside a whitespace run. -/
def collapseWsAux : Bool → List Char → List Char
  | _, [] => []
  | inRun, c :: rest =>
    if c.isWhitespace then
      if inRun then collapseWsAux true rest else '_' :: collapseWsAux true rest
    else c :: collapseWsAux false rest

/-- Source `replace(/\s+/g, "_")`: each maximal whitespace run becomes one `_`. -/
def underscoreWs (s : String) : String :=
  ⟨collapseWsAux false s.data⟩

/-- Source `replace(/c/g, rep)` for a single character `c`. -/
def replaceAllChar (target : Char) (rep : List Char) (s : List Char) :
    List Char :=
  s.flatMap (fun c => if c = target then rep else [c])

/-- Source `text.replace(/'/g, "\\'").replace(/:/g, "\\:")`. -/
def escapeDrawtextText (s : String) : String :=
  ⟨replaceAllChar ':' ['\\', ':'] (replaceAllChar '\'' ['\\', '\''] s.data)⟩

/-- Does `pat` occur at the head of the list? -/
def leadsWith : List Char → List Char → Bool
  | [], _ => true
  | _ :: _, [] => false
  | p :: ps, c :: cs => p == c && leadsWith ps cs

/-- JavaScript `String.prototype.replace` with a string pattern: replace
the first occurrence only. -/
def replaceFirstAux (pat rep : List Char) : List Char → List Char
  | [] => []
  | c :: rest =>
    if leadsWith pat (c :: rest) then rep ++ (c :: rest).drop pat.length
    else c :: replaceFirstAux pat rep rest

def replaceStr (pat rep s : String) : String :=
  ⟨replaceFirstAux pat.data rep.data s.data⟩

/-- Does `pat` occur anywhere in `s`? (used only to state properties of
the generated command text). -/
def hasSub (pat : List Char) : List Char → Bool
  | [] => pat.isEmpty
  | c :: rest => leadsWith pat (c :: rest) || hasSub pat rest

def containsStr (s pat : String) : Bool :=
  hasSub pat.data s.data

def roundStr (q : ℚ) : String :=
  toString (round q)

/-- Source `generateFFmpegCommand`, as a pure function of the template flag, the
canvas size, and the layer list (the only state it reads). -/
def generateFFmpegCommand (templatePresent : Bool) (canvasSize : CanvasSize)
    (layers : List Layer) : String :=
  let visibleLayers :=
    List.insertionSort (fun a b => a.zIndex ≤ b.zIndex)
      (layers.filter (fun l => l.visible))
  let videoLayers := visibleLayers.filter (fun l => l.type = LayerType.video)
  let textLayers := visibleLayers.filter (fun l => l.type = LayerType.text)
  if visibleLayers.length = 0 then
    "# Add at least one visible layer first"
  else
    let command := "ffmpeg \\\n"
    let command := command ++ String.join (videoLayers.map (fun l =>
      "  -i \"" ++ underscoreWs (lowerStr l.name) ++ ".mp4\" \\\n"))
    let command :=
      if templatePresent then command ++ "  -i \"template.png\" \\\n"
      else command
    let command := command ++ "  -filter_complex \"\n"
    let command := command ++ "    color=size=" ++ toString canvasSize.width ++
      "x" ++ toString canvasSize.height ++ ":color=black:d=1[base];\n\n"
    let command := command ++ String.join (videoLayers.enum.map (fun p =>
      "    [" ++ toString p.1 ++ ":v]scale=" ++ roundStr p.2.width ++ ":" ++
      roundStr p.2.height ++ ":force_original_aspect_ratio=decrease,\n" ++
      "    pad=" ++ roundStr p.2.width ++ ":" ++ roundStr p.2.height ++
      ":(ow-iw)/2:(oh-ih)/2[v" ++ toString p.1 ++ "];\n\n"))
    let acc := videoLayers.enum.foldl (fun (acc : String × String) p =>
      let nextBase :=
        if p.1 = videoLayers.length - 1 then "videos" else "tmp" ++ toString p.1
      (acc.1 ++ "    [" ++ acc.2 ++ "][v" ++ toString p.1 ++ "]overlay=" ++
        roundStr p.2.x ++ ":" ++ roundStr p.2.y ++ "[" ++ nextBase ++ "];\n",
       nextBase)) (command, "base")
    let command := acc.1
    let currentBase := acc.2
    let acc2 :=
      if 0 < textLayers.length then
        textLayers.enum.foldl (fun (acc : String × String) p =>
          let escapedText := escapeDrawtextText p.2.text
          let fontfile := "/System/Library/Fonts/" ++ p.2.fontFamily ++ ".ttf"
          let nextBase :=
            if p.1 = textLayers.length - 1 then "final"
            else "txt" ++ toString p.1
          (acc.1 ++ "    [" ++ acc.2 ++ "]drawtext=text='" ++ escapedText ++
            "':" ++ "fontfile='" ++ fontfile ++ "':" ++
            "fontsize=" ++ toString p.2.fontSize ++ ":" ++
            "fontcolor=" ++ replaceStr "#" "0x" p.2.color ++ ":" ++
            "x=" ++ roundStr p.2.x ++ ":y=" ++ roundStr p.2.y ++
            (if p.2.bold && p.2.italic then
              ":font='" ++ p.2.fontFamily ++ " Bold Italic'"
             else if p.2.bold then ":font='" ++ p.2.fontFamily ++ " Bold'"
             else if p.2.italic then ":font='" ++ p.2.fontFamily ++ " Italic'"
             else "") ++ "[" ++ nextBase ++ "];\n", nextBase))
          (command, currentBase)
      else
        (command,
         if currentBase = "base" then "final"
         else replaceStr "videos" "final" currentBase)
    let command := acc2.1
    let currentBase := acc2.2
    let acc3 :=
      if templatePresent then
        (command ++ "\n    [" ++ currentBase ++ "][" ++
          toString videoLayers.length ++ ":v]overlay=0:0[output]\n", "output")
      else (command, currentBase)
    let command := acc3.1
    let currentBase := acc3.2
    let command := command ++ "  \" \\\n"
    let command := command ++ "  -map \"[" ++ currentBase ++ "]\" \\\n"
    let command := command ++
      "  -c:v libx264 -pix_fmt yuv420p -crf 18 -preset medium \\\n"
    let command := command ++ "  -shortest \\\n"
    let command := command ++ "  \"output.mp4\""
    command

/-! ## Concrete sample data used by witnesses and counterexamples -/

/-- A hidden (invisible) video layer. -/
def hiddenVideo : Layer :=
  { id := "video-1", type := LayerType.video, name := "Video 1",
    x := 20, y := 20, visible := false, zIndex := 1,
    width := 340, height := 340 }

/-- A visible default-sized video layer at the default position. -/
def sampleVideo : Layer :=
  { id := "video-1", type := LayerType.video, name := "Video 1",
    x := 20, y := 20, visible := true, zIndex := 1,
    width := 340, height := 340 }

/-- A visible aspect-locked 2:1 video layer. -/
def lockedVideo : Layer :=
  { id := "video-2", type := LayerType.video, name := "Video 2",
    x := 0, y := 0, visible := true, zIndex := 1,
    width := 200, height := 100, aspectLocked := true, aspectRatio := 2 }

/-- A locked square video layer (aspectRatio 1). -/
def lockedSquare : Layer :=
  { id := "v", type := LayerType.video, name := "V",
    x := 0, y := 0, visible := true, zIndex := 1,
    width := 100, height := 100, aspectLocked := true, aspectRatio := 1 }

/-- An update supplying both dimensions at once. -/
def bothDims : LayerUpdates :=
  { width := some 30, height := some 100 }

/-! ## C8: snapping -/

/-- C8: `snapValue` is idempotent; with snapping enabled the result is an
integer multiple of the grid size, and with snapping disabled the value
passes through unchanged.  The hypothesis `0 < gridSize` reflects the UI
invariant (the grid-size input is clamped by `Math.max(5, …)` and starts
at 20). -/
theorem snapValue_spec (snapToGrid : Bool) (gridSize v : ℚ)
    (hg : 0 < gridSize) :
    snapValue snapToGrid gridSize (snapValue snapToGrid gridSize v) =
      snapValue snapToGrid gridSize v ∧
    (snapToGrid = true →
      ∃ k : ℤ, snapValue snapToGrid gridSize v = (k : ℚ) * gridSize) ∧
    (snapToGrid = false → snapValue snapToGrid gridSize v = v) := by
  cases snapToGrid with
  | false => simp [snapValue]
  | true =>
    refine ⟨?_, fun _ => ⟨round (v / gridSize), by simp [snapValue]⟩, by simp⟩
    have hg0 : gridSize ≠ 0 := ne_of_gt hg
    simp only [snapValue, if_true]
    rw [mul_div_cancel_right₀ _ hg0, round_intCast]

/-- Witness for C8 at `gridSize = 20`, `v = 50`. -/
theorem snapValue_spec_witness :
    (0 : ℚ) < 20 ∧
    (snapValue true 20 (snapValue true 20 50) = snapValue true 20 50 ∧
     (true = true → ∃ k : ℤ, snapValue true 20 50 = (k : ℚ) * 20) ∧
     (true = false → snapValue true 20 50 = 50)) :=
  ⟨by norm_num, snapValue_spec true 20 50 (by norm_num)⟩

/-! ## C9: compiling with zero visible layers -/

/-- C9: with no visible layer (in particular for the empty list), the
compiler returns the human-readable diagnostic placeholder, which contains
no `-i` input declaration and no filter graph. -/
theorem generateFFmpegCommand_no_visible (templatePresent : Bool)
    (canvasSize : CanvasSize) (layers : List Layer)
    (h : ∀ l ∈ layers, l.visible = false) :
    generateFFmpegCommand templatePresent canvasSize layers =
      "# Add at least one visible layer first" ∧
    containsStr (generateFFmpegCommand templatePresent canvasSize layers)
      "-i " = false ∧
    containsStr (generateFFmpegCommand templatePresent canvasSize layers )
      "-filter_complex" = false := by
  have hfil : layers.filter (fun l => l.visible) = [] := by
    rw [List.filter_eq_nil_iff]
    intro a ha
    simp [h a ha]
  have hcmd : generateFFmpegCommand templatePresent canvasSize layers =
      "# Add at least one visible layer first" := by
    unfold generateFFmpegCommand
    rw [hfil]
    rfl
  rw [hcmd]
  exact ⟨rfl, by decide, by decide⟩

/-- Witness for C9 on a one-element collection whose only layer is hidden. -/
theorem generateFFmpegCommand_no_visible_witness :
    (∀ l ∈ [hiddenVideo], l.visible = false) ∧
    (generateFFmpegCommand false ⟨504, 846⟩ [hiddenVideo] =
      "# Add at least one visible layer first" ∧
     containsStr (generateFFmpegCommand false ⟨504, 846⟩ [hiddenVideo])
       "-i " = false ∧
     containsStr (generateFFmpegCommand false ⟨504, 846⟩ [hiddenVideo])
       "-filter_complex" = false) :=
  ⟨by decide,
   generateFFmpegCommand_no_visible false ⟨504, 846⟩ [hiddenVideo] (by decide)⟩

/-! ## C10: `updateLayer` aspect-ratio derivation -/

/-- C10: for an aspect-locked video layer, `updateLayer` derives the other
dimension from `aspectRatio` only when exactly one of width/height is
supplied; supplying both applies both verbatim, so a single update can
leave `width ≠ height * aspectRatio` while the lock is on. -/
theorem updateLayer_aspect (l : Layer) (hv : l.type = LayerType.video)
    (hl : l.aspectLocked = true) :
    (∀ u : LayerUpdates, ∀ w h : ℚ, u.width = some w → u.height = some h →
        (updateLayerFields l u).width = w ∧
        (updateLayerFields l u).height = h) ∧
    (∀ u : LayerUpdates, ∀ w : ℚ, u.width = some w → u.height = none →
        (updateLayerFields l u).width = w ∧
        (updateLayerFields l u).height =
          ((round (w / l.aspectRatio) : ℤ) : ℚ)) ∧
    (∀ u : LayerUpdates, ∀ hq : ℚ, u.height = some hq → u.width = none →
        (updateLayerFields l u).height = hq ∧
        (updateLayerFields l u).width =
          ((round (hq * l.aspectRatio) : ℤ) : ℚ)) ∧
    (∃ (l' : Layer) (u' : LayerUpdates),
        l'.type = LayerType.video ∧ l'.aspectLocked = true ∧
        (updateLayerFields l' u').aspectLocked = true ∧
        (updateLayerFields l' u').width ≠
          (updateLayerFields l' u').height *
            (updateLayerFields l' u').aspectRatio) := by
  refine ⟨?_, ?_, ?_, ?_⟩
  · intro u w h hw hh
    constructor <;>
      · simp only [updateLayerFields, hv, reduceIte]
        rw [hw, hh]
        try split
        all_goals simp [spreadUpdates, hw, hh, hl]
  · intro u w hw hh
    constructor <;>
      · simp only [updateLayerFields, hv, reduceIte]
        rw [hw, hh]
        try split
        all_goals simp [spreadUpdates, hw, hh, hl]
  · intro u hq hh hw
    constructor <;>
      · simp only [updateLayerFields, hv, reduceIte]
        rw [hw, hh]
        try split
        all_goals simp [spreadUpdates, hw, hh, hl]
  · refine ⟨lockedSquare, bothDims, rfl, rfl, ?_, ?_⟩
    · simp [updateLayerFields, spreadUpdates, lockedSquare, bothDims]
    · simp [updateLayerFields, spreadUpdates, lockedSquare, bothDims]

/-- Witness for C10: supplying both dimensions applies the width verbatim
on a concrete locked layer. -/
theorem updateLayer_aspect_witness :
    (updateLayerFields lockedVideo bothDims).width = 30 :=
  ((updateLayer_aspect lockedVideo rfl rfl).1 bothDims 30 100 rfl rfl).1

/-! ## Helper lemmas about `updateLayerFields` and snapping -/

theorem snapValue_false (g v : ℚ) : snapValue false g v = v := by
  simp [snapValue]

/-- When both dimensions (and both coordinates) are supplied, `updateLayer`
applies the spread verbatim: no aspect derivation fires. -/
theorem updateLayerFields_xywh (l : Layer) (x y w h : ℚ) :
    updateLayerFields l
        { x := some x, y := some y, width := some w, height := some h } =
      { l with x := x, y := y, width := w, height := h } := by
  unfold updateLayerFields
  split
  · simp [spreadUpdates]
  · simp [spreadUpdates]

/-- A position-only update changes exactly `x` and `y`. -/
theorem updateLayerFields_xy (l : Layer) (x y : ℚ) :
    updateLayerFields l { x := some x, y := some y } =
      { l with x := x, y := y } := by
  unfold updateLayerFields
  split
  · simp [spreadUpdates]
  · simp [spreadUpdates]

theorem boxWidth_set_xy (mw : TextMeasure) (l : Layer) (x y : ℚ) :
    boxWidth mw { l with x := x, y := y } = boxWidth mw l := rfl

theorem boxHeight_set_xy (mw : TextMeasure) (l : Layer) (x y : ℚ) :
    boxHeight mw { l with x := x, y := y } = boxHeight mw l := rfl

/-! ## C3: the MIN_SIZE floor -/

/-- C3 counterexample: resizing the aspect-locked 2:1 layer with the `e`
handle 300px to the left floors the driving width at `MIN_SIZE = 50`, but
the aspect-derived height becomes `25 < MIN_SIZE`. -/
theorem resize_min_size_counterexample :
    (resizeMove ⟨504, 846⟩ false 20 Handle.e ⟨0, 0, 200, 100⟩ (-300) 0
      lockedVideo).height = 25 ∧
    (resizeMove ⟨504, 846⟩ false 20 Handle.e ⟨0, 0, 200, 100⟩ (-300) 0
      lockedVideo).height < MIN_SIZE := by
  have h : (resizeMove ⟨504, 846⟩ false 20 Handle.e ⟨0, 0, 200, 100⟩ (-300) 0
      lockedVideo).height = 25 := by
    simp only [resizeMove, computeResize, lockedVideo, MIN_SIZE]
    norm_num [updateLayerFields_xywh, snapValue_false]
  refine ⟨h, ?_⟩
  rw [h]
  norm_num [MIN_SIZE]

/-- C3 amended: with aspect lock off and snapping off, a resize
pointer-move keeps both dimensions at or above `MIN_SIZE`, provided the
gesture-start geometry satisfied the floor (the aspect-derived dimension,
snapped values and `updateLayer`-supplied values are not floored). -/
theorem resize_min_size (c : CanvasSize) (g : ℚ) (hdl : Handle)
    (start : Rect) (dx dy : ℚ) (l : Layer) (hv : l.type = LayerType.video)
    (hlock : l.aspectLocked = false)
    (hw : MIN_SIZE ≤ start.width) (hh : MIN_SIZE ≤ start.height) :
    MIN_SIZE ≤ (resizeMove c false g hdl start dx dy l).width ∧
    MIN_SIZE ≤ (resizeMove c false g hdl start dx dy l).height := by
  unfold resizeMove
  rw [if_pos hv]
  rw [updateLayerFields_xywh]
  simp only [snapValue_false, hlock]
  cases hdl <;> refine ⟨?_, ?_⟩ <;>
    simp only [computeResize, Bool.false_eq_true, if_false] <;>
    first
      | exact le_max_left _ _
      | exact hw
      | exact hh

/-- Witness for C3 (amended) on a concrete unlocked resize. -/
theorem resize_min_size_witness :
    MIN_SIZE ≤ (resizeMove ⟨504, 846⟩ false 20 Handle.e ⟨20, 20, 340, 340⟩
      10 0 sampleVideo).width ∧
    MIN_SIZE ≤ (resizeMove ⟨504, 846⟩ false 20 Handle.e ⟨20, 20, 340, 340⟩
      10 0 sampleVideo).height :=
  resize_min_size ⟨504, 846⟩ 20 Handle.e ⟨20, 20, 340, 340⟩ 10 0 sampleVideo
    rfl rfl (by norm_num [MIN_SIZE]) (by norm_num [MIN_SIZE])

/-! ## C5: aspect preservation under resize -/

/-- A visible aspect-locked 2:1 video layer at 260×130. -/
def lockedVideo260 : Layer :=
  { id := "video-3", type := LayerType.video, name := "Video 3",
    x := 0, y := 0, visible := true, zIndex := 1,
    width := 260, height := 130, aspectLocked := true, aspectRatio := 2 }

/-- C5 counterexample: with snapping enabled (grid 100), resizing the
aspect-locked 2:1 layer snaps 260×130 to 300×100, leaving
`width − height·aspectRatio = 100` — far beyond rounding tolerance. -/
theorem resize_aspect_counterexample :
    (resizeMove ⟨5040, 8460⟩ true 100 Handle.e ⟨0, 0, 260, 130⟩ 0 0
      lockedVideo260).width = 300 ∧
    (resizeMove ⟨5040, 8460⟩ true 100 Handle.e ⟨0, 0, 260, 130⟩ 0 0
      lockedVideo260).height = 100 ∧
    lockedVideo260.aspectRatio = 2 ∧
    (resizeMove ⟨5040, 8460⟩ true 100 Handle.e ⟨0, 0, 260, 130⟩ 0 0
      lockedVideo260).width -
      (resizeMove ⟨5040, 8460⟩ true 100 Handle.e ⟨0, 0, 260, 130⟩ 0 0
        lockedVideo260).height * lockedVideo260.aspectRatio = 100 := by
  have hres : resizeMove ⟨5040, 8460⟩ true 100 Handle.e ⟨0, 0, 260, 130⟩ 0 0
      lockedVideo260 =
      { lockedVideo260 with x := 0, y := 0, width := 300, height := 100 } := by
    simp only [resizeMove, computeResize, lockedVideo260, MIN_SIZE]
    norm_num [updateLayerFields_xywh, snapValue, round_eq]
  rw [hres]
  norm_num [lockedVideo260]

/-- C5 amended: with snapping disabled, every aspect-locked resize yields
exactly `width = height * aspectRatio`, for each of the eight handles. -/
theorem resize_aspect_exact (c : CanvasSize) (g : ℚ) (hdl : Handle)
    (start : Rect) (dx dy : ℚ) (l : Layer) (hv : l.type = LayerType.video)
    (hlock : l.aspectLocked = true) (hr : 0 < l.aspectRatio) :
    (resizeMove c false g hdl start dx dy l).width =
      (resizeMove c false g hdl start dx dy l).height * l.aspectRatio := by
  have hr0 : l.aspectRatio ≠ 0 := ne_of_gt hr
  unfold resizeMove
  rw [if_pos hv]
  rw [updateLayerFields_xywh]
  simp only [snapValue_false, hlock]
  cases hdl <;> simp [computeResize, div_mul_cancel₀ _ hr0]

/-- Witness for C5 (amended) on a concrete locked resize. -/
theorem resize_aspect_exact_witness :
    (resizeMove ⟨504, 846⟩ false 20 Handle.nw ⟨0, 0, 200, 100⟩ 0 0
      lockedVideo).width =
      (resizeMove ⟨504, 846⟩ false 20 Handle.nw ⟨0, 0, 200, 100⟩ 0 0
        lockedVideo).height * lockedVideo.aspectRatio :=
  resize_aspect_exact ⟨504, 846⟩ 20 Handle.nw ⟨0, 0, 200, 100⟩ 0 0
    lockedVideo rfl rfl (by norm_num [lockedVideo])

/-! ## C2: geometry stays within canvas bounds -/

/-- C2 counterexample: resizing the default layer 400px to the right gives
width 740 on a 504-wide canvas; the clamp only moves `x` to 0, so
`x + width = 740 > 504` escapes the canvas. -/
theorem move_bounds_counterexample :
    (resizeMove ⟨504, 846⟩ false 20 Handle.e ⟨20, 20, 340, 340⟩ 400 0
      sampleVideo).x = 0 ∧
    (resizeMove ⟨504, 846⟩ false 20 Handle.e ⟨20, 20, 340, 340⟩ 400 0
      sampleVideo).width = 740 ∧
    ¬((resizeMove ⟨504, 846⟩ false 20 Handle.e ⟨20, 20, 340, 340⟩ 400 0
        sampleVideo).x +
      (resizeMove ⟨504, 846⟩ false 20 Handle.e ⟨20, 20, 340, 340⟩ 400 0
        sampleVideo).width ≤ ((504 : ℤ) : ℚ)) := by
  have hres : resizeMove ⟨504, 846⟩ false 20 Handle.e ⟨20, 20, 340, 340⟩ 400 0
      sampleVideo =
      { sampleVideo with x := 0, y := 20, width := 740, height := 340 } := by
    simp only [resizeMove, computeResize, sampleVideo, MIN_SIZE]
    norm_num [updateLayerFields_xywh, snapValue_false]
  rw [hres]
  norm_num [sampleVideo]

/-- C2 amended: with snapping disabled, a resize keeps the whole rectangle
inside the canvas provided the resulting width/height fit the canvas, and
a drag keeps the whole (stored or measured) bounding box inside the canvas
provided that box fits the canvas.  (With snapping on, or when the resized
size exceeds the canvas, the box can escape — see the counterexample.) -/
theorem move_bounds (c : CanvasSize) (g : ℚ) :
    (∀ (hdl : Handle) (start : Rect) (dx dy : ℚ) (l : Layer),
      l.type = LayerType.video →
      (resizeMove c false g hdl start dx dy l).width ≤ (c.width : ℚ) →
      (resizeMove c false g hdl start dx dy l).height ≤ (c.height : ℚ) →
      0 ≤ (resizeMove c false g hdl start dx dy l).x ∧
      0 ≤ (resizeMove c false g hdl start dx dy l).y ∧
      (resizeMove c false g hdl start dx dy l).x +
        (resizeMove c false g hdl start dx dy l).width ≤ (c.width : ℚ) ∧
      (resizeMove c false g hdl start dx dy l).y +
        (resizeMove c false g hdl start dx dy l).height ≤ (c.height : ℚ)) ∧
    (∀ (mw : TextMeasure) (grabX grabY px py : ℚ) (l : Layer),
      boxWidth mw l ≤ (c.width : ℚ) →
      boxHeight mw l ≤ (c.height : ℚ) →
      0 ≤ (dragMove c false g mw grabX grabY px py l).x ∧
      0 ≤ (dragMove c false g mw grabX grabY px py l).y ∧
      (dragMove c false g mw grabX grabY px py l).x +
        boxWidth mw (dragMove c false g mw grabX grabY px py l) ≤
          (c.width : ℚ) ∧
      (dragMove c false g mw grabX grabY px py l).y +
        boxHeight mw (dragMove c false g mw grabX grabY px py l) ≤
          (c.height : ℚ)) := by
  constructor
  · intro hdl start dx dy l hv
    unfold resizeMove
    rw [if_pos hv, updateLayerFields_xywh]
    simp only [snapValue_false]
    intro hwle hhle
    refine ⟨le_max_left 0 _, le_max_left 0 _, ?_, ?_⟩
    · have h1 : max 0 (min ((c.width : ℚ) -
          (computeResize hdl start l.aspectLocked l.aspectRatio dx dy).width)
          (computeResize hdl start l.aspectLocked l.aspectRatio dx dy).x) ≤
          (c.width : ℚ) -
          (computeResize hdl start l.aspectLocked l.aspectRatio dx dy).width :=
        max_le (by linarith) (min_le_left _ _)
      linarith
    · have h1 : max 0 (min ((c.height : ℚ) -
          (computeResize hdl start l.aspectLocked l.aspectRatio dx dy).height)
          (computeResize hdl start l.aspectLocked l.aspectRatio dx dy).y) ≤
          (c.height : ℚ) -
          (computeResize hdl start l.aspectLocked l.aspectRatio dx dy).height :=
        max_le (by linarith) (min_le_left _ _)
      linarith
  · intro mw grabX grabY px py l hwle hhle
    unfold dragMove
    rw [updateLayerFields_xy]
    simp only [snapValue_false, boxWidth_set_xy, boxHeight_set_xy]
    refine ⟨le_max_left 0 _, le_max_left 0 _, ?_, ?_⟩
    · have h1 : max 0 (min ((c.width : ℚ) - boxWidth mw l) (px - grabX)) ≤
          (c.width : ℚ) - boxWidth mw l :=
        max_le (by linarith) (min_le_left _ _)
      linarith
    · have h1 : max 0 (min ((c.height : ℚ) - boxHeight mw l) (py - grabY)) ≤
          (c.height : ℚ) - boxHeight mw l :=
        max_le (by linarith) (min_le_left _ _)
      linarith

/-- Witness for C2 (amended): a concrete in-range resize stays in bounds. -/
theorem move_bounds_witness :
    0 ≤ (resizeMove ⟨504, 846⟩ false 20 Handle.e ⟨20, 20, 340, 340⟩ 10 0
      sampleVideo).x ∧
    0 ≤ (resizeMove ⟨504, 846⟩ false 20 Handle.e ⟨20, 20, 340, 340⟩ 10 0
      sampleVideo).y ∧
    (resizeMove ⟨504, 846⟩ false 20 Handle.e ⟨20, 20, 340, 340⟩ 10 0
      sampleVideo).x +
      (resizeMove ⟨504, 846⟩ false 20 Handle.e ⟨20, 20, 340, 340⟩ 10 0
        sampleVideo).width ≤ (((504 : ℤ) : ℚ)) ∧
    (resizeMove ⟨504, 846⟩ false 20 Handle.e ⟨20, 20, 340, 340⟩ 10 0
      sampleVideo).y +
      (resizeMove ⟨504, 846⟩ false 20 Handle.e ⟨20, 20, 340, 340⟩ 10 0
        sampleVideo).height ≤ (((846 : ℤ) : ℚ)) :=
  (move_bounds ⟨504, 846⟩ 20).1 Handle.e ⟨20, 20, 340, 340⟩ 10 0 sampleVideo
    rfl
    (by simp only [resizeMove, computeResize, sampleVideo, MIN_SIZE]
        norm_num [updateLayerFields_xywh, snapValue_false])
    (by simp only [resizeMove, computeResize, sampleVideo, MIN_SIZE]
        norm_num [updateLayerFields_xywh, snapValue_false])

/-! ## C4: point containment and topmost-layer lookup -/

/-- On a descending-by-zIndex list, the first `find?` match has a zIndex at
least that of every other match. -/
theorem find?_first_ge_z {p : Layer → Bool} {xs : List Layer} {r : Layer}
    (hs : List.Pairwise (fun a b : Layer => b.zIndex ≤ a.zIndex) xs)
    (hf : xs.find? p = some r) :
    ∀ l ∈ xs, p l = true → l.zIndex ≤ r.zIndex := by
  induction xs with
  | nil => simp at hf
  | cons a t ih =>
    rw [List.find?_cons] at hf
    rcases List.pairwise_cons.mp hs with ⟨ha, ht⟩
    intro l hl hpl
    by_cases hpa : p a = true
    · simp only [hpa] at hf
      have har : a = r := by simpa using hf
      subst har
      rcases List.mem_cons.mp hl with rfl | hlt
      · exact le_refl _
      · exact ha l hlt
    · simp only [Bool.not_eq_true] at hpa
      simp only [hpa] at hf
      rcases List.mem_cons.mp hl with rfl | hlt
      · rw [hpl] at hpa; cases hpa
      · exact ih ht hf l hlt hpl

/-- Lemma: `sortedDescByZ` is pairwise descending in zIndex. -/
theorem sortedDescByZ_pairwise (layers : List Layer) :
    List.Pairwise (fun a b : Layer => b.zIndex ≤ a.zIndex)
      (sortedDescByZ layers) := by
  haveI ht : IsTotal Layer (fun a b : Layer => b.zIndex ≤ a.zIndex) :=
    ⟨fun a b => le_total b.zIndex a.zIndex⟩
  haveI htr : IsTrans Layer (fun a b : Layer => b.zIndex ≤ a.zIndex) :=
    ⟨fun _ _ _ h1 h2 => le_trans h2 h1⟩
  exact List.sorted_insertionSort _ layers

/-- C4 counterexample: the right/bottom edges are inside for the code
(closed comparisons `x <= layer.x + layer.width`), so the claimed
half-open containment `px < x + w` is violated at `px = x + w`. -/
theorem isPointInLayer_counterexample :
    isPointInLayer (fun _ _ _ _ _ => 0) sampleVideo 360 100 = true ∧
    ¬(sampleVideo.x ≤ 360 ∧ (360 : ℚ) < sampleVideo.x + sampleVideo.width ∧
      sampleVideo.y ≤ 100 ∧ (100 : ℚ) < sampleVideo.y + sampleVideo.height) := by
  constructor
  · norm_num [isPointInLayer, sampleVideo]
  · norm_num [sampleVideo]

/-- C4 amended: containment holds iff the point lies in the *closed* box
`[x, x+w] × [y, y+h]` (stored size for video, measured size for text);
the pointer-down lookup scans descending by zIndex and returns a visible
containing layer whose zIndex is maximal among visible containing layers;
invisible layers never match. -/
theorem hit_test_spec (mw : TextMeasure) (px py : ℚ) :
    (∀ l : Layer, l.type = LayerType.video →
      (isPointInLayer mw l px py = true ↔
        (l.x ≤ px ∧ px ≤ l.x + l.width ∧ l.y ≤ py ∧ py ≤ l.y + l.height))) ∧
    (∀ l : Layer, l.type = LayerType.text →
      (isPointInLayer mw l px py = true ↔
        (l.x ≤ px ∧ px ≤ l.x + (measureText mw l).1 ∧
         l.y ≤ py ∧ py ≤ l.y + (measureText mw l).2))) ∧
    (∀ (layers : List Layer) (r : Layer),
      findClickedLayer mw layers px py = some r →
      r ∈ layers ∧ r.visible = true ∧ isPointInLayer mw r px py = true ∧
      ∀ l ∈ layers, l.visible = true → isPointInLayer mw l px py = true →
        l.zIndex ≤ r.zIndex) ∧
    (∀ layers : List Layer,
      findClickedLayer mw layers px py = none →
      ∀ l ∈ layers, l.visible = true → isPointInLayer mw l px py = false) := by
  refine ⟨?_, ?_, ?_, ?_⟩
  · intro l hv
    simp [isPointInLayer, hv, and_assoc]
  · intro l hv
    simp [isPointInLayer, hv, and_assoc]
  · intro layers r hf
    simp only [findClickedLayer] at hf
    have hmem : r ∈ sortedDescByZ layers := List.mem_of_find?_eq_some hf
    have hperm := List.perm_insertionSort
      (fun a b : Layer => b.zIndex ≤ a.zIndex) layers
    have hmem' : r ∈ layers := hperm.mem_iff.mp hmem
    have hp := List.find?_some hf
    simp only [Bool.and_eq_true] at hp
    refine ⟨hmem', hp.1, hp.2, ?_⟩
    intro l hl hvis hpt
    have hl' : l ∈ sortedDescByZ layers := hperm.mem_iff.mpr hl
    exact find?_first_ge_z (sortedDescByZ_pairwise layers) hf l hl'
      (by simp [hvis, hpt])
  · intro layers hf l hl hvis
    simp only [findClickedLayer] at hf
    rw [List.find?_eq_none] at hf
    have hperm := List.perm_insertionSort
      (fun a b : Layer => b.zIndex ≤ a.zIndex) layers
    have := hf l (hperm.mem_iff.mpr hl)
    simpa [hvis] using this

/-- Witness for C4 (amended): a point strictly inside the sample layer is
reported inside. -/
theorem hit_test_spec_witness :
    isPointInLayer (fun _ _ _ _ _ => 0) sampleVideo 100 100 = true :=
  ((hit_test_spec (fun _ _ _ _ _ => 0) 100 100).1 sampleVideo rfl).mpr
    (by norm_num [sampleVideo])

/-! ## C6: duplication -/

theorem foldl_max_le_acc (t : List Layer) (acc : ℤ) :
    acc ≤ t.foldl (fun m x => max m x.zIndex) acc := by
  induction t generalizing acc with
  | nil => exact le_refl _
  | cons b t ih =>
    rw [List.foldl_cons]
    exact le_trans (le_max_left _ _) (ih _)

theorem foldl_max_mem (t : List Layer) (acc : ℤ) :
    ∀ x ∈ t, x.zIndex ≤ t.foldl (fun m x => max m x.zIndex) acc := by
  induction t generalizing acc with
  | nil => simp
  | cons b t ih =>
    intro x hx
    rw [List.foldl_cons]
    rcases List.mem_cons.mp hx with rfl | hxt
    · exact le_trans (le_max_right acc x.zIndex) (foldl_max_le_acc t _)
    · exact ih _ x hxt

/-- Lemma: `zMax` dominates every member's zIndex. -/
theorem le_zMax (ls : List Layer) : ∀ l ∈ ls, l.zIndex ≤ zMax ls := by
  cases ls with
  | nil => simp
  | cons a t =>
    intro l hl
    rcases List.mem_cons.mp hl with rfl | hlt
    · exact foldl_max_le_acc t l.zIndex
    · exact foldl_max_mem t a.zIndex l hlt

/-- A layer whose id embeds the timestamp 5, as `addVideoLayer` would
create it at `Date.now() = 5`. -/
def staleVideo : Layer :=
  { id := "video-5", type := LayerType.video, name := "Video 1",
    x := 0, y := 0, visible := true, zIndex := 1,
    width := 340, height := 340 }

/-- C6 counterexample: duplicating at `Date.now() = 5` a layer whose id
already embeds timestamp 5 reuses the id — the appended layer's id is not
distinct from every id already in the collection. -/
theorem duplicateLayer_counterexample :
    (duplicateLayer 5 false 20 ⟨504, 846⟩ "video-5" [staleVideo]).map
      (fun l => l.id) = ["video-5", "video-5"] := by
  decide

/-- C6 amended: provided the id `` `${type}-${now}` `` built from the
current timestamp is not already present, duplication appends exactly one
layer (existing layers unchanged) with a fresh id, the name suffixed
" (copy)", the position offset by 30 and clamped by
`min(·, canvas − 100)` (then snapped), and a zIndex strictly greater than
every prior layer's. -/
theorem duplicateLayer_spec (now : ℕ) (snap : Bool) (g : ℚ)
    (c : CanvasSize) (id : String) (layers : List Layer) (L : Layer)
    (hfind : findLayer id layers = some L)
    (hfresh : ∀ l ∈ layers, l.id ≠ typeTag L.type ++ "-" ++ toString now) :
    ∃ nl : Layer,
      duplicateLayer now snap g c id layers = layers ++ [nl] ∧
      (∀ l ∈ layers, l.id ≠ nl.id) ∧
      nl.name = L.name ++ " (copy)" ∧
      nl.x = snapValue snap g (min (L.x + 30) ((c.width : ℚ) - 100)) ∧
      nl.y = snapValue snap g (min (L.y + 30) ((c.height : ℚ) - 100)) ∧
      (∀ l ∈ layers, l.zIndex < nl.zIndex) := by
  unfold duplicateLayer
  rw [hfind]
  refine ⟨_, rfl, ?_, rfl, rfl, rfl, ?_⟩
  · intro l hl
    exact hfresh l hl
  · intro l hl
    exact Int.lt_add_one_iff.mpr (le_zMax layers l hl)

/-- Witness for C6 (amended) with a fresh timestamp 7. -/
theorem duplicateLayer_spec_witness :
    ∃ nl : Layer,
      duplicateLayer 7 false 20 ⟨504, 846⟩ "video-5" [staleVideo] =
        [staleVideo] ++ [nl] ∧
      (∀ l ∈ [staleVideo], l.id ≠ nl.id) ∧
      nl.name = staleVideo.name ++ " (copy)" ∧
      nl.x = snapValue false 20
        (min (staleVideo.x + 30) (((504 : ℤ) : ℚ) - 100)) ∧
      nl.y = snapValue false 20
        (min (staleVideo.y + 30) (((846 : ℤ) : ℚ) - 100)) ∧
      (∀ l ∈ [staleVideo], l.zIndex < nl.zIndex) :=
  duplicateLayer_spec 7 false 20 ⟨504, 846⟩ "video-5" [staleVideo] staleVideo
    (by decide) (by decide)

/-! ## C7: z-order helpers -/

theorem foldlMin_mem (t : List Layer) (a : Layer) :
    t.foldl (fun m l => if l.zIndex < m.zIndex then l else m) a = a ∨
    t.foldl (fun m l => if l.zIndex < m.zIndex then l else m) a ∈ t := by
  induction t generalizing a with
  | nil => left; rfl
  | cons b t ih =>
    rw [List.foldl_cons]
    rcases ih (if b.zIndex < a.zIndex then b else a) with h | h
    · rw [h]
      split
      · right; exact List.mem_cons_self b t
      · left; rfl
    · right; exact List.mem_cons_of_mem b h

theorem foldlMin_le (t : List Layer) (a : Layer) :
    (t.foldl (fun m l => if l.zIndex < m.zIndex then l else m) a).zIndex ≤
      a.zIndex ∧
    ∀ l ∈ t,
      (t.foldl (fun m l => if l.zIndex < m.zIndex then l else m) a).zIndex ≤
        l.zIndex := by
  induction t generalizing a with
  | nil => exact ⟨le_refl _, by simp⟩
  | cons b t ih =>
    rw [List.foldl_cons]
    obtain ⟨h1, h2⟩ := ih (if b.zIndex < a.zIndex then b else a)
    have hba : (if b.zIndex < a.zIndex then b else a).zIndex ≤ a.zIndex := by
      split
      · next hc => exact le_of_lt hc
      · exact le_refl _
    have hbb : (if b.zIndex < a.zIndex then b else a).zIndex ≤ b.zIndex := by
      split
      · exact le_refl _
      · next hc => exact le_of_not_lt hc
    refine ⟨le_trans h1 hba, ?_⟩
    intro l hl
    rcases List.mem_cons.mp hl with rfl | hlt
    · exact le_trans h1 hbb
    · exact h2 l hlt

theorem minByZ_mem (h : Layer) (t : List Layer) : minByZ h t ∈ h :: t := by
  rcases foldlMin_mem t h with he | hm
  · rw [minByZ, he]; exact List.mem_cons_self h t
  · exact List.mem_cons_of_mem h hm

theorem minByZ_le (h : Layer) (t : List Layer) :
    ∀ l ∈ h :: t, (minByZ h t).zIndex ≤ l.zIndex := by
  intro l hl
  rcases List.mem_cons.mp hl with rfl | hlt
  · exact (foldlMin_le t l).1
  · exact (foldlMin_le t h).2 l hlt

theorem foldlMax_mem (t : List Layer) (a : Layer) :
    t.foldl (fun m l => if m.zIndex < l.zIndex then l else m) a = a ∨
    t.foldl (fun m l => if m.zIndex < l.zIndex then l else m) a ∈ t := by
  induction t generalizing a with
  | nil => left; rfl
  | cons b t ih =>
    rw [List.foldl_cons]
    rcases ih (if a.zIndex < b.zIndex then b else a) with h | h
    · rw [h]
      split
      · right; exact List.mem_cons_self b t
      · left; rfl
    · right; exact List.mem_cons_of_mem b h

theorem foldlMax_ge (t : List Layer) (a : Layer) :
    a.zIndex ≤
      (t.foldl (fun m l => if m.zIndex < l.zIndex then l else m) a).zIndex ∧
    ∀ l ∈ t,
      l.zIndex ≤
        (t.foldl (fun m l => if m.zIndex < l.zIndex then l else m) a).zIndex := by
  induction t generalizing a with
  | nil => exact ⟨le_refl _, by simp⟩
  | cons b t ih =>
    rw [List.foldl_cons]
    obtain ⟨h1, h2⟩ := ih (if a.zIndex < b.zIndex then b else a)
    have hba : a.zIndex ≤ (if a.zIndex < b.zIndex then b else a).zIndex := by
      split
      · next hc => exact le_of_lt hc
      · exact le_refl _
    have hbb : b.zIndex ≤ (if a.zIndex < b.zIndex then b else a).zIndex := by
      split
      · exact le_refl _
      · next hc => exact le_of_not_lt hc
    refine ⟨le_trans hba h1, ?_⟩
    intro l hl
    rcases List.mem_cons.mp hl with rfl | hlt
    · exact le_trans hbb h1
    · exact h2 l hlt

theorem maxByZ_mem (h : Layer) (t : List Layer) : maxByZ h t ∈ h :: t := by
  rcases foldlMax_mem t h with he | hm
  · rw [maxByZ, he]; exact List.mem_cons_self h t
  · exact List.mem_cons_of_mem h hm

theorem maxByZ_ge (h : Layer) (t : List Layer) :
    ∀ l ∈ h :: t, l.zIndex ≤ (maxByZ h t).zIndex := by
  intro l hl
  rcases List.mem_cons.mp hl with rfl | hlt
  · exact (foldlMax_ge t l).1
  · exact (foldlMax_ge t h).2 l hlt

/-- In a collection with pairwise-distinct ids, members are determined by
their id. -/
theorem mem_eq_of_id {ls : List Layer} (hid : (ls.map Layer.id).Nodup)
    {a b : Layer} (ha : a ∈ ls) (hb : b ∈ ls) (h : a.id = b.id) : a = b :=
  List.inj_on_of_nodup_map hid ha hb h

/-- In a collection with pairwise-distinct zIndexes, members are determined
by their zIndex. -/
theorem mem_eq_of_z {ls : List Layer} (hz : (ls.map Layer.zIndex).Nodup)
    {a b : Layer} (ha : a ∈ ls) (hb : b ∈ ls) (h : a.zIndex = b.zIndex) :
    a = b :=
  List.inj_on_of_nodup_map hz ha hb h

/-- With pairwise-distinct ids, `find?` by a member's id returns that
member. -/
theorem findLayer_of_mem {ls : List Layer} (hid : (ls.map Layer.id).Nodup)
    {a : Layer} (ha : a ∈ ls) : findLayer a.id ls = some a := by
  have hsome : (ls.find? (fun l => l.id = a.id)).isSome :=
    List.find?_isSome.mpr ⟨a, ha, by simp⟩
  rw [Option.isSome_iff_exists] at hsome
  obtain ⟨r, hr⟩ := hsome
  have hpr : r.id = a.id := by simpa using List.find?_some hr
  have hrm : r ∈ ls := List.mem_of_find?_eq_some hr
  have hra : r = a := mem_eq_of_id hid hrm ha hpr
  rw [findLayer, hr, hra]

/-- Swapping the zIndexes of two distinct-id members and then swapping them
back is the identity on the collection. -/
theorem swap_map_inverse (ls : List Layer) (A B : Layer)
    (hid : (ls.map Layer.id).Nodup) (hA : A ∈ ls) (hB : B ∈ ls) :
    (ls.map (fun l =>
        if l.id = A.id then { l with zIndex := B.zIndex }
        else if l.id = B.id then { l with zIndex := A.zIndex }
        else l)).map (fun l =>
        if l.id = A.id then { l with zIndex := A.zIndex }
        else if l.id = B.id then { l with zIndex := B.zIndex }
        else l) = ls := by
  rw [List.map_map]
  have hpt : ∀ l ∈ ls,
      ((fun l =>
        if l.id = A.id then { l with zIndex := A.zIndex }
        else if l.id = B.id then { l with zIndex := B.zIndex }
        else l) ∘ (fun l =>
        if l.id = A.id then { l with zIndex := B.zIndex }
        else if l.id = B.id then { l with zIndex := A.zIndex }
        else l)) l = id l := by
    intro l hl
    simp only [Function.comp_apply, id_eq]
    by_cases h1 : l.id = A.id
    · have hlA : l = A := mem_eq_of_id hid hl hA h1
      subst hlA
      rw [if_pos h1, if_pos h1]
    · by_cases h2 : l.id = B.id
      · have hlB : l = B := mem_eq_of_id hid hl hB h2
        subst hlB
        rw [if_neg h1, if_pos h2, if_neg h1, if_pos h2]
      · rw [if_neg h1, if_neg h2, if_neg h1, if_neg h2]
  rw [List.map_congr_left hpt, List.map_id]

/-- Raising a non-topmost layer and then lowering it restores the
collection exactly (distinct ids, distinct zIndexes). -/
theorem raise_then_lower (ls : List Layer) (A : Layer) (hA : A ∈ ls)
    (hid : (ls.map Layer.id).Nodup) (hz : (ls.map Layer.zIndex).Nodup)
    (hnotTop : ∃ b ∈ ls, A.zIndex < b.zIndex) :
    moveLayerDown A.id (moveLayerUp A.id ls) = ls := by
  have hfindA : findLayer A.id ls = some A := findLayer_of_mem hid hA
  cases hF : ls.filter (fun l => A.zIndex < l.zIndex) with
  | nil =>
    exfalso
    obtain ⟨b, hb, hbz⟩ := hnotTop
    rw [List.filter_eq_nil_iff] at hF
    exact hF b hb (by simpa using hbz)
  | cons h0 t0 =>
    set B := minByZ h0 t0 with hBdef
    have hBF : B ∈ ls.filter (fun l => A.zIndex < l.zIndex) := by
      rw [hF]; exact minByZ_mem h0 t0
    have hBls : B ∈ ls := (List.mem_filter.mp hBF).1
    have hABz : A.zIndex < B.zIndex := by
      simpa using (List.mem_filter.mp hBF).2
    have hBmin : ∀ l ∈ ls, A.zIndex < l.zIndex → B.zIndex ≤ l.zIndex := by
      intro l hl hlz
      have hmem : l ∈ ls.filter (fun l => A.zIndex < l.zIndex) :=
        List.mem_filter.mpr ⟨hl, by simpa using hlz⟩
      rw [hF] at hmem
      exact minByZ_le h0 t0 l hmem
    have hBAid : ¬ B.id = A.id := by
      intro h
      have hBA : B = A := mem_eq_of_id hid hBls hA h
      rw [hBA] at hABz
      exact lt_irrefl _ hABz
    set f : Layer → Layer := fun l =>
        if l.id = A.id then { l with zIndex := B.zIndex }
        else if l.id = B.id then { l with zIndex := A.zIndex }
        else l with hfdef
    have hup : moveLayerUp A.id ls = ls.map f := by
      simp only [moveLayerUp, hfindA, hF]
    have hkey : ∀ l ∈ ls, (l = A ∧ f l = { A with zIndex := B.zIndex }) ∨
        (l = B ∧ f l = { B with zIndex := A.zIndex }) ∨
        (¬ l.id = A.id ∧ ¬ l.id = B.id ∧ f l = l) := by
      intro l hl
      by_cases h1 : l.id = A.id
      · left
        have hlA : l = A := mem_eq_of_id hid hl hA h1
        subst hlA
        refine ⟨rfl, ?_⟩
        simp only [hfdef]
        simp
      · by_cases h2 : l.id = B.id
        · right; left
          have hlB : l = B := mem_eq_of_id hid hl hBls h2
          subst hlB
          refine ⟨rfl, ?_⟩
          simp only [hfdef]
          simp [h1]
        · right; right
          refine ⟨h1, h2, ?_⟩
          simp only [hfdef]
          simp [h1, h2]
    have hfA : f A = { A with zIndex := B.zIndex } := by
      simp only [hfdef]
      simp
    have hfB : f B = { B with zIndex := A.zIndex } := by
      simp only [hfdef]
      simp [hBAid]
    have hids' : (ls.map f).map Layer.id = ls.map Layer.id := by
      rw [List.map_map]
      refine List.map_congr_left ?_
      intro l hl
      simp only [Function.comp_apply, hfdef]
      split
      · rfl
      · split <;> rfl
    have hid' : ((ls.map f).map Layer.id).Nodup := by
      rw [hids']; exact hid
    have hidA : (f A).id = A.id := by rw [hfA]
    have hfindA' : findLayer A.id (ls.map f) = some (f A) := by
      rw [← hidA]
      exact findLayer_of_mem hid' (List.mem_map_of_mem f hA)
    have hAz' : (f A).zIndex = B.zIndex := by rw [hfA]
    have hBz' : (f B).zIndex = A.zIndex := by rw [hfB]
    have hfBmem : f B ∈ ls.map f := List.mem_map_of_mem f hBls
    cases hF' : (ls.map f).filter (fun l => l.zIndex < (f A).zIndex) with
    | nil =>
      exfalso
      have hmem : f B ∈ (ls.map f).filter
          (fun l => l.zIndex < (f A).zIndex) := by
        refine List.mem_filter.mpr ⟨hfBmem, ?_⟩
        rw [hBz', hAz']
        simpa using hABz
      rw [hF'] at hmem
      exact absurd hmem (List.not_mem_nil _)
    | cons h1 t1 =>
      set M := maxByZ h1 t1 with hMdef
      have hMF : M ∈ (ls.map f).filter (fun l => l.zIndex < (f A).zIndex) := by
        rw [hF']; exact maxByZ_mem h1 t1
      have hMls' : M ∈ ls.map f := (List.mem_filter.mp hMF).1
      have hMlt : M.zIndex < B.zIndex := by
        have h := (List.mem_filter.mp hMF).2
        rw [hAz'] at h
        simpa using h
      have hMmax : ∀ l ∈ ls.map f, l.zIndex < B.zIndex →
          l.zIndex ≤ M.zIndex := by
        intro l hl hlz
        have hmem : l ∈ (ls.map f).filter
            (fun l => l.zIndex < (f A).zIndex) := by
          refine List.mem_filter.mpr ⟨hl, ?_⟩
          rw [hAz']
          simpa using hlz
        rw [hF'] at hmem
        exact maxByZ_ge h1 t1 l hmem
      have hAleM : A.zIndex ≤ M.zIndex := by
        have h := hMmax (f B) hfBmem (by rw [hBz']; exact hABz)
        rwa [hBz'] at h
      have hMfB : M = f B := by
        obtain ⟨lm, hlm, hMeq⟩ := List.mem_map.mp hMls'
        rcases hkey lm hlm with ⟨rfl, ex⟩ | ⟨rfl, ex⟩ | ⟨n1, n2, ex⟩
        · exfalso
          rw [← hMeq, hAz'] at hMlt
          exact lt_irrefl _ hMlt
        · rw [← hMeq]
        · exfalso
          rw [ex] at hMeq
          subst hMeq
          rcases lt_or_eq_of_le hAleM with hlt | heq
          · exact absurd hMlt (not_lt.mpr (hBmin M hlm hlt))
          · have hAl : A = M := mem_eq_of_z hz hA hlm heq
            exact n1 (by rw [← hAl])
      have hdown : moveLayerDown A.id (ls.map f) = (ls.map f).map (fun l =>
          if l.id = A.id then { l with zIndex := A.zIndex }
          else if l.id = B.id then { l with zIndex := B.zIndex }
          else l) := by
        simp only [moveLayerDown, hfindA', hF']
        rw [← hMdef, hMfB, hfB, hfA]
      rw [hup, hdown, hfdef]
      exact swap_map_inverse ls A B hid hA hBls

/-- Lowering a non-bottommost layer and then raising it restores the
collection exactly (distinct ids, distinct zIndexes). -/
theorem lower_then_raise (ls : List Layer) (A : Layer) (hA : A ∈ ls)
    (hid : (ls.map Layer.id).Nodup) (hz : (ls.map Layer.zIndex).Nodup)
    (hnotBot : ∃ b ∈ ls, b.zIndex < A.zIndex) :
    moveLayerUp A.id (moveLayerDown A.id ls) = ls := by
  have hfindA : findLayer A.id ls = some A := findLayer_of_mem hid hA
  cases hF : ls.filter (fun l => l.zIndex < A.zIndex) with
  | nil =>
    exfalso
    obtain ⟨b, hb, hbz⟩ := hnotBot
    rw [List.filter_eq_nil_iff] at hF
    exact hF b hb (by simpa using hbz)
  | cons h0 t0 =>
    set B := maxByZ h0 t0 with hBdef
    have hBF : B ∈ ls.filter (fun l => l.zIndex < A.zIndex) := by
      rw [hF]; exact maxByZ_mem h0 t0
    have hBls : B ∈ ls := (List.mem_filter.mp hBF).1
    have hABz : B.zIndex < A.zIndex := by
      simpa using (List.mem_filter.mp hBF).2
    have hBmax : ∀ l ∈ ls, l.zIndex < A.zIndex → l.zIndex ≤ B.zIndex := by
      intro l hl hlz
      have hmem : l ∈ ls.filter (fun l => l.zIndex < A.zIndex) :=
        List.mem_filter.mpr ⟨hl, by simpa using hlz⟩
      rw [hF] at hmem
      exact maxByZ_ge h0 t0 l hmem
    have hBAid : ¬ B.id = A.id := by
      intro h
      have hBA : B = A := mem_eq_of_id hid hBls hA h
      rw [hBA] at hABz
      exact lt_irrefl _ hABz
    set f : Layer → Layer := fun l =>
        if l.id = A.id then { l with zIndex := B.zIndex }
        else if l.id = B.id then { l with zIndex := A.zIndex }
        else l with hfdef
    have hdown1 : moveLayerDown A.id ls = ls.map f := by
      simp only [moveLayerDown, hfindA, hF]
    have hkey : ∀ l ∈ ls, (l = A ∧ f l = { A with zIndex := B.zIndex }) ∨
        (l = B ∧ f l = { B with zIndex := A.zIndex }) ∨
        (¬ l.id = A.id ∧ ¬ l.id = B.id ∧ f l = l) := by
      intro l hl
      by_cases h1 : l.id = A.id
      · left
        have hlA : l = A := mem_eq_of_id hid hl hA h1
        subst hlA
        refine ⟨rfl, ?_⟩
        simp only [hfdef]
        simp
      · by_cases h2 : l.id = B.id
        · right; left
          have hlB : l = B := mem_eq_of_id hid hl hBls h2
          subst hlB
          refine ⟨rfl, ?_⟩
          simp only [hfdef]
          simp [h1]
        · right; right
          refine ⟨h1, h2, ?_⟩
          simp only [hfdef]
          simp [h1, h2]
    have hfA : f A = { A with zIndex := B.zIndex } := by
      simp only [hfdef]
      simp
    have hfB : f B = { B with zIndex := A.zIndex } := by
      simp only [hfdef]
      simp [hBAid]
    have hids' : (ls.map f).map Layer.id = ls.map Layer.id := by
      rw [List.map_map]
      refine List.map_congr_left ?_
      intro l hl
      simp only [Function.comp_apply, hfdef]
      split
      · rfl
      · split <;> rfl
    have hid' : ((ls.map f).map Layer.id).Nodup := by
      rw [hids']; exact hid
    have hidA : (f A).id = A.id := by rw [hfA]
    have hfindA' : findLayer A.id (ls.map f) = some (f A) := by
      rw [← hidA]
      exact findLayer_of_mem hid' (List.mem_map_of_mem f hA)
    have hAz' : (f A).zIndex = B.zIndex := by rw [hfA]
    have hBz' : (f B).zIndex = A.zIndex := by rw [hfB]
    have hfBmem : f B ∈ ls.map f := List.mem_map_of_mem f hBls
    cases hF' : (ls.map f).filter (fun l => (f A).zIndex < l.zIndex) with
    | nil =>
      exfalso
      have hmem : f B ∈ (ls.map f).filter
          (fun l => (f A).zIndex < l.zIndex) := by
        refine List.mem_filter.mpr ⟨hfBmem, ?_⟩
        rw [hBz', hAz']
        simpa using hABz
      rw [hF'] at hmem
      exact absurd hmem (List.not_mem_nil _)
    | cons h1 t1 =>
      set M := minByZ h1 t1 with hMdef
      have hMF : M ∈ (ls.map f).filter
          (fun l => (f A).zIndex < l.zIndex) := by
        rw [hF']; exact minByZ_mem h1 t1
      have hMls' : M ∈ ls.map f := (List.mem_filter.mp hMF).1
      have hMgt : B.zIndex < M.zIndex := by
        have h := (List.mem_filter.mp hMF).2
        rw [hAz'] at h
        simpa using h
      have hMmin : ∀ l ∈ ls.map f, B.zIndex < l.zIndex →
          M.zIndex ≤ l.zIndex := by
        intro l hl hlz
        have hmem : l ∈ (ls.map f).filter
            (fun l => (f A).zIndex < l.zIndex) := by
          refine List.mem_filter.mpr ⟨hl, ?_⟩
          rw [hAz']
          simpa using hlz
        rw [hF'] at hmem
        exact minByZ_le h1 t1 l hmem
      have hMleA : M.zIndex ≤ A.zIndex := by
        have h := hMmin (f B) hfBmem (by rw [hBz']; exact hABz)
        rwa [hBz'] at h
      have hMfB : M = f B := by
        obtain ⟨lm, hlm, hMeq⟩ := List.mem_map.mp hMls'
        rcases hkey lm hlm with ⟨rfl, ex⟩ | ⟨rfl, ex⟩ | ⟨n1, n2, ex⟩
        · exfalso
          rw [← hMeq, hAz'] at hMgt
          exact lt_irrefl _ hMgt
        · rw [← hMeq]
        · exfalso
          rw [ex] at hMeq
          subst hMeq
          rcases lt_or_eq_of_le hMleA with hlt | heq
          · exact absurd hMgt (not_lt.mpr (hBmax M hlm hlt))
          · have hAl : M = A := mem_eq_of_z hz hlm hA heq
            exact n1 (by rw [hAl])
      have hup2 : moveLayerUp A.id (ls.map f) = (ls.map f).map (fun l =>
          if l.id = A.id then { l with zIndex := A.zIndex }
          else if l.id = B.id then { l with zIndex := B.zIndex }
          else l) := by
        simp only [moveLayerUp, hfindA', hF']
        rw [← hMdef, hMfB, hfB, hfA]
      rw [hdown1, hup2, hfdef]
      exact swap_map_inverse ls A B hid hA hBls

/-- Raising an already-topmost layer is a no-op. -/
theorem moveLayerUp_noop (ls : List Layer) (A : Layer) (hA : A ∈ ls)
    (hid : (ls.map Layer.id).Nodup)
    (htop : ∀ l ∈ ls, l.zIndex ≤ A.zIndex) :
    moveLayerUp A.id ls = ls := by
  have hfindA : findLayer A.id ls = some A := findLayer_of_mem hid hA
  have hF : ls.filter (fun l => A.zIndex < l.zIndex) = [] := by
    rw [List.filter_eq_nil_iff]
    intro l hl
    simp [not_lt.mpr (htop l hl)]
  simp only [moveLayerUp, hfindA, hF]

/-- Lowering an already-bottommost layer is a no-op. -/
theorem moveLayerDown_noop (ls : List Layer) (A : Layer) (hA : A ∈ ls)
    (hid : (ls.map Layer.id).Nodup)
    (hbot : ∀ l ∈ ls, A.zIndex ≤ l.zIndex) :
    moveLayerDown A.id ls = ls := by
  have hfindA : findLayer A.id ls = some A := findLayer_of_mem hid hA
  have hF : ls.filter (fun l => l.zIndex < A.zIndex) = [] := by
    rw [List.filter_eq_nil_iff]
    intro l hl
    simp [not_lt.mpr (hbot l hl)]
  simp only [moveLayerDown, hfindA, hF]

/-- A bottom layer with zIndex 1. -/
def layA : Layer :=
  { id := "a", type := LayerType.video, name := "A",
    x := 0, y := 0, visible := true, zIndex := 1,
    width := 100, height := 100 }

/-- A top layer with zIndex 2. -/
def layB : Layer :=
  { id := "b", type := LayerType.video, name := "B",
    x := 0, y := 0, visible := true, zIndex := 2,
    width := 100, height := 100 }

/-- C7 counterexample: on the already-topmost layer, raise is a no-op but
the following lower still swaps, so raise-then-lower does not restore the
original zIndex ordering. -/
theorem moveLayer_counterexample :
    (moveLayerDown "b" (moveLayerUp "b" [layA, layB])).map
      (fun l => l.zIndex) = [2, 1] ∧
    [layA, layB].map (fun l => l.zIndex) = [1, 2] := by
  decide

/-- C7 amended: over collections with pairwise-distinct ids and
pairwise-distinct zIndexes, raise-then-lower restores the collection when
the target is not already topmost, lower-then-raise restores it when the
target is not already bottommost, raise alone is a no-op on the topmost
layer, and lower alone is a no-op on the bottommost layer. -/
theorem moveLayer_spec (ls : List Layer) (A : Layer) (hA : A ∈ ls)
    (hid : (ls.map Layer.id).Nodup) (hz : (ls.map Layer.zIndex).Nodup) :
    ((∃ b ∈ ls, A.zIndex < b.zIndex) →
      moveLayerDown A.id (moveLayerUp A.id ls) = ls) ∧
    ((∃ b ∈ ls, b.zIndex < A.zIndex) →
      moveLayerUp A.id (moveLayerDown A.id ls) = ls) ∧
    ((∀ l ∈ ls, l.zIndex ≤ A.zIndex) → moveLayerUp A.id ls = ls) ∧
    ((∀ l ∈ ls, A.zIndex ≤ l.zIndex) → moveLayerDown A.id ls = ls) :=
  ⟨raise_then_lower ls A hA hid hz, lower_then_raise ls A hA hid hz,
   moveLayerUp_noop ls A hA hid, moveLayerDown_noop ls A hA hid⟩

/-- Witness for C7 (amended): raise-then-lower on the non-topmost layer of
a concrete two-layer collection restores it. -/
theorem moveLayer_spec_witness :
    moveLayerDown "a" (moveLayerUp "a" [layA, layB]) = [layA, layB] :=
  (moveLayer_spec [layA, layB] layA (by decide) (by decide) (by decide)).1
    (by decide)

/-! ## C1: filter-graph chaining -/

set_option maxRecDepth 4000 in
/-- C1: for one visible video layer, no visible text layer and no
template, the generated command's final filter stage outputs the label
`[videos]`, while the output mapping is `-map "[final]"` — and no stage
defines `[final]` (every stage output in this command ends in `];` or is
`[base];`).  The chain the claim requires is broken in exactly the case it
spotlights. -/
theorem generate_map_label_undefined :
    generateFFmpegCommand false ⟨504, 846⟩ [sampleVideo] =
      "ffmpeg \\\n  -i \"video_1.mp4\" \\\n  -filter_complex \"\n    color=size=504x846:color=black:d=1[base];\n\n    [0:v]scale=340:340:force_original_aspect_ratio=decrease,\n    pad=340:340:(ow-iw)/2:(oh-ih)/2[v0];\n\n    [base][v0]overlay=20:20[videos];\n  \" \\\n  -map \"[final]\" \\\n  -c:v libx264 -pix_fmt yuv420p -crf 18 -preset medium \\\n  -shortest \\\n  \"output.mp4\"" ∧
    containsStr (generateFFmpegCommand false ⟨504, 846⟩ [sampleVideo])
      "overlay=20:20[videos];" = true ∧
    containsStr (generateFFmpegCommand false ⟨504, 846⟩ [sampleVideo])
      "-map \"[final]\"" = true ∧
    containsStr (generateFFmpegCommand false ⟨504, 846⟩ [sampleVideo])
      "[final];" = false ∧
    containsStr (generateFFmpegCommand false ⟨504, 846⟩ [sampleVideo])
      "[final]\n" = false := by
  have e340 : roundStr ((340 : ℚ)) = "340" := by
    rw [roundStr]
    simp only [round_ofNat]
    decide
  have e20 : roundStr ((20 : ℚ)) = "20" := by
    rw [roundStr]
    simp only [round_ofNat]
    decide
  have hcmd : generateFFmpegCommand false ⟨504, 846⟩ [sampleVideo] =
      "ffmpeg \\\n  -i \"video_1.mp4\" \\\n  -filter_complex \"\n    color=size=504x846:color=black:d=1[base];\n\n    [0:v]scale=340:340:force_original_aspect_ratio=decrease,\n    pad=340:340:(ow-iw)/2:(oh-ih)/2[v0];\n\n    [base][v0]overlay=20:20[videos];\n  \" \\\n  -map \"[final]\" \\\n  -c:v libx264 -pix_fmt yuv420p -crf 18 -preset medium \\\n  -shortest \\\n  \"output.mp4\"" := by
    simp [generateFFmpegCommand, sampleVideo, List.insertionSort,
      List.orderedInsert, e340, e20, String.join, lowerStr, underscoreWs,
      collapseWsAux, replaceStr, replaceFirstAux, leadsWith]
    decide
  refine ⟨hcmd, ?_, ?_, ?_, ?_⟩ <;> rw [hcmd] <;> decide

end FFC
